import Mathlib

/-!
# Verification of the `cpal-synth` DSP core

Shallow embedding of the synthesiser core found in `src/cpal-synth/src/synth/`:
the sample-indexed automation parameter (`audio_param.rs`), the wavetable bank
(`bandlimited_wavetableoscillator.rs`), the PolyBLEP oscillator
(`oscillator.rs`), the summing processor (`processor.rs`) and the graph's
buffer-fill routine (`audio_graph.rs`).

Scalar `f32` state is embedded as `ℚ`; the evaluator `get_value` returns `ℝ`
because its exponential branch uses a real power.  Sample indices (`u64`) are
embedded as `ℕ`; the claims under study do not exercise 64-bit wrap-around,
except where an explicit `% 2 ^ 64` models `usize::wrapping_sub`.
-/

/-- `RampType` from `audio_param.rs`. -/
inductive RampType where
  | Linear : RampType
  | Exponential : RampType
deriving DecidableEq, Repr

/-- `RampEvent` from `audio_param.rs`. -/
structure RampEvent where
  start_value : ℚ
  end_value : ℚ
  start_sample : ℕ
  duration_samples : ℕ
  ramp_type : RampType
deriving DecidableEq, Repr

/-- `AudioParam` from `audio_param.rs`.  The `AtomicCell` holding
`current_value` and the `RwLock` around `events` are concurrency wrappers;
their contents are embedded directly.  Mutating methods (which take `&self`
but write through interior mutability) are embedded as state transformers
`AudioParam → AudioParam`. -/
structure AudioParam where
  current_value : ℚ
  default_value : ℚ
  min_value : ℚ
  max_value : ℚ
  events : List RampEvent
deriving DecidableEq, Repr

namespace AudioParam

/-- `AudioParam::new`. -/
def new (default_value min_value max_value : ℚ) : AudioParam :=
  { current_value := default_value
    default_value := default_value
    min_value := min_value
    max_value := max_value
    events := [] }

/-- `AudioParam::clamp_value`, i.e. `value.clamp(self.min_value, self.max_value)`
(for `min_value ≤ max_value`, which holds for every parameter the code builds). -/
def clamp_value (p : AudioParam) (value : ℚ) : ℚ :=
  min (max value p.min_value) p.max_value

/-- `AudioParam::set_value`. -/
def set_value (p : AudioParam) (value : ℚ) : AudioParam :=
  { p with current_value := p.clamp_value value }

/-- `((duration_seconds * sample_rate) as u64).max(1)`: the `as u64` cast
truncates toward zero and sends negative values to `0`. -/
def durationSamples (duration_seconds sample_rate : ℚ) : ℕ :=
  (⌊duration_seconds * sample_rate⌋.toNat).max 1

/-- `AudioParam::linear_ramp_to_value_at_time`. -/
def linear_ramp_to_value_at_time (p : AudioParam)
    (value duration_seconds : ℚ) (start_sample : ℕ) (sample_rate : ℚ) :
    AudioParam :=
  { p with
    events := p.events ++
      [{ start_value := p.current_value
         end_value := p.clamp_value value
         start_sample := start_sample
         duration_samples := durationSamples duration_seconds sample_rate
         ramp_type := RampType.Linear }] }

/-- `AudioParam::exponential_ramp_to_value_at_time`.  Note: the endpoints are
clamped to `[min_value, max_value]` only; no ε-lift happens here. -/
def exponential_ramp_to_value_at_time (p : AudioParam)
    (value duration_seconds : ℚ) (start_sample : ℕ) (sample_rate : ℚ) :
    AudioParam :=
  { p with
    events := p.events ++
      [{ start_value := p.current_value
         end_value := p.clamp_value value
         start_sample := start_sample
         duration_samples := durationSamples duration_seconds sample_rate
         ramp_type := RampType.Exponential }] }

/-- The loop guard `current_sample >= event.start_sample && current_sample <
event.start_sample + event.duration_samples` of `get_value`. -/
def inProgressAt (s : ℕ) (e : RampEvent) : Bool :=
  decide (e.start_sample ≤ s ∧ s < e.start_sample + e.duration_samples)

/-- The `else if current_sample >= event.start_sample + event.duration_samples`
guard of `get_value`. -/
def completedAt (s : ℕ) (e : RampEvent) : Bool :=
  decide (e.start_sample + e.duration_samples ≤ s)

/-- The value an in-progress event contributes in `get_value`:
`t = (current_sample - start_sample) / duration_samples`, then the `match` on
`ramp_type`.  The exponential branch floors both endpoints at `1e-5` before
taking `start * (end / start).powf(t)`. -/
noncomputable def interpRamp (e : RampEvent) (s : ℕ) : ℝ :=
  let t : ℚ := ((s - e.start_sample : ℕ) : ℚ) / (e.duration_samples : ℚ)
  match e.ramp_type with
  | RampType.Linear => ((e.start_value + (e.end_value - e.start_value) * t : ℚ) : ℝ)
  | RampType.Exponential =>
      ((max e.start_value (1 / 100000) : ℚ) : ℝ) *
        (((max e.end_value (1 / 100000) : ℚ) : ℝ) /
            ((max e.start_value (1 / 100000) : ℚ) : ℝ)) ^ ((t : ℚ) : ℝ)

/-- The `for event in events.iter()` loop of `get_value`, with the running
`value` accumulator: an in-progress event returns its interpolation and stops
(`break`), a completed event overwrites the accumulator with its `end_value`
and continues, a not-yet-started event is skipped. -/
noncomputable def getValueAux (s : ℕ) : ℚ → List RampEvent → ℝ
  | v, [] => (v : ℝ)
  | v, e :: rest =>
      if inProgressAt s e then interpRamp e s
      else if completedAt s e then getValueAux s e.end_value rest
      else getValueAux s v rest

/-- `AudioParam::get_value`.  The Rust method takes `&self` and performs no
store (`current_value` is only `load`ed, `events` only read-locked), so it is
embedded as a pure function: the parameter state it is given is by construction
unchanged by the call. -/
noncomputable def get_value (p : AudioParam) (current_sample : ℕ) : ℝ :=
  getValueAux current_sample p.current_value p.events

/-- `AudioParam::cancel_scheduled_values`. -/
def cancel_scheduled_values (p : AudioParam) : AudioParam :=
  { p with events := [] }

/-- `AudioParam::reset`. -/
def reset (p : AudioParam) : AudioParam :=
  { p with current_value := p.default_value, events := [] }

end AudioParam

/-- `OscillatorType` from `oscillator.rs`. -/
inductive OscillatorType where
  | Sine : OscillatorType
  | Square : OscillatorType
  | Sawtooth : OscillatorType
  | Triangle : OscillatorType
deriving DecidableEq, Repr

/-- `InterpolationType` from `bandlimited_wavetableoscillator.rs` (the
`x86_64`-only `Simd` variant included). -/
inductive InterpolationType where
  | Linear : InterpolationType
  | Cubic : InterpolationType
  | Simd : InterpolationType
deriving DecidableEq, Repr

/-- `Oscillator` (the PolyBLEP oscillator) from `oscillator.rs`. -/
structure Oscillator where
  osc_type : OscillatorType
  frequency : AudioParam
  gain : AudioParam
  phase : ℚ
  triangle_state : ℚ
deriving Repr

namespace Oscillator

/-- `Oscillator::new`.  The frequency range is the literal
`AudioParam::new(440.0, 0.01, 22050.0)` — the constructor takes no sample
rate. -/
def new (osc_type : OscillatorType) : Oscillator :=
  { osc_type := osc_type
    frequency := AudioParam.new 440 (1 / 100) 22050
    gain := AudioParam.new 1 0 1
    phase := 0
    triangle_state := 0 }

end Oscillator

/-- The free function `fmod(x, y) = x - (x / y).floor() * y` from
`oscillator.rs`. -/
def fmod (x y : ℚ) : ℚ := x - ⌊x / y⌋ * y

/-- The phase advance at the end of `Oscillator::process_bandlimited`:
`self.phase += dt; self.phase = fmod(self.phase, 1.0)`. -/
def oscPhaseStep (phase dt : ℚ) : ℚ := fmod (phase + dt) 1

/-! ## Wavetable bank (`bandlimited_wavetableoscillator.rs`)

The constants and the control flow of `WaveTableBank::new` are embedded
exactly; the per-table sample data (the inverse-FFT output of
`create_wavetable`) is not inspected by any claim under study and is omitted.
`tables.push` and `frequency_bounds.push` occur in the same loop iteration of
`WaveTableBank::new`, so the number of tables equals the length of the
`frequency_bounds` vector; the bank is embedded by that shared length together
with the bounds themselves, which are independent of the waveform kind. -/

/-- `OVERSAMPLE` from `bandlimited_wavetableoscillator.rs`. -/
def OVERSAMPLE : ℕ := 2

/-- `BASE_FREQ` from `bandlimited_wavetableoscillator.rs`. -/
def BASE_FREQ : ℚ := 20

/-- `MIN_TABLE_SIZE` from `bandlimited_wavetableoscillator.rs`. -/
def MIN_TABLE_SIZE : ℕ := 64

/-- `let max_harmonics = (sample_rate / (3.0 * BASE_FREQ)) as usize` — the
`as usize` cast truncates toward zero. -/
def maxHarmonics (sample_rate : ℚ) : ℕ :=
  ⌊sample_rate / (3 * BASE_FREQ)⌋.toNat

/-- The `while table_len < max_harmonics * 2 * OVERSAMPLE { table_len *= 2 }`
loop of `WaveTableBank::new`, run with enough fuel: doubling from
`MIN_TABLE_SIZE` reaches `target` within `target` steps. -/
def tableLenAux (target : ℕ) : ℕ → ℕ → ℕ
  | 0, len => len
  | fuel + 1, len => if len < target then tableLenAux target fuel (len * 2) else len

/-- The `table_len` computed by `WaveTableBank::new`. -/
def tableLen (max_harmonics : ℕ) : ℕ :=
  tableLenAux (max_harmonics * 2 * OVERSAMPLE) (max_harmonics * 2 * OVERSAMPLE)
    MIN_TABLE_SIZE

/-- The `while harmonics >= 1` loop of `WaveTableBank::new`, collecting the
pushed `frequency_bounds` entries (`top_freq * sample_rate`); each iteration
does `harmonics >>= 1; top_freq *= 2.0`.  Run with fuel equal to the initial
`harmonics`, which bounds the iteration count since `harmonics` halves. -/
def bankBoundsAux (sample_rate : ℚ) : ℕ → ℕ → ℚ → List ℚ
  | 0, _, _ => []
  | fuel + 1, harmonics, top_freq =>
      if 1 ≤ harmonics then
        (top_freq * sample_rate) ::
          bankBoundsAux sample_rate fuel (harmonics >>> 1) (top_freq * 2)
      else []

/-- The `frequency_bounds` vector built by `WaveTableBank::new`, starting from
`harmonics = max_harmonics` and `top_freq = BASE_FREQ * 2.0 / sample_rate`. -/
def bankBounds (sample_rate : ℚ) : List ℚ :=
  bankBoundsAux sample_rate (maxHarmonics sample_rate) (maxHarmonics sample_rate)
    (BASE_FREQ * 2 / sample_rate)

/-- `WaveTableBank`, by table count, bounds and per-table length (every table
of a bank has sample vector length `table_size + 1`: `create_wavetable` pushes
one guard sample after the `table_len` FFT outputs). -/
structure WaveTableBank where
  num_tables : ℕ
  frequency_bounds : List ℚ
  table_size : ℕ
  sample_rate : ℚ
deriving Repr

/-- `WaveTableBank::new`.  The waveform kind decides only the spectrum handed
to the FFT (the sample data, not modelled); the loop structure, hence the
table count, the bounds and the table length, is the same for every kind. -/
def WaveTableBank.new (_waveform : OscillatorType) (sample_rate : ℚ) :
    WaveTableBank :=
  { num_tables := (bankBounds sample_rate).length
    frequency_bounds := bankBounds sample_rate
    table_size := tableLen (maxHarmonics sample_rate)
    sample_rate := sample_rate }

/-- `BandlimitedWavetableOscillator` from `bandlimited_wavetableoscillator.rs`. -/
structure BandlimitedWavetableOscillator where
  bank : WaveTableBank
  frequency : AudioParam
  gain : AudioParam
  phase : ℚ
  phase_increment : ℚ
  current_table : ℕ
  last_freq : ℚ
  interpolation_mode : InterpolationType
deriving Repr

namespace BandlimitedWavetableOscillator

/-- `BandlimitedWavetableOscillator::new`.  The registry either returns the
cached bank or builds `WaveTableBank::new(waveform, sample_rate)`; both give
the same bank value.  The frequency range is the literal
`AudioParam::new(440.0, 0.01, 22050.0)`, independent of `sample_rate`. -/
def new (waveform : OscillatorType) (sample_rate : ℚ) :
    BandlimitedWavetableOscillator :=
  { bank := WaveTableBank.new waveform sample_rate
    frequency := AudioParam.new 440 (1 / 100) 22050
    gain := AudioParam.new 1 0 1
    phase := 0
    phase_increment := 0
    current_table := 0
    last_freq := 0
    interpolation_mode := InterpolationType.Linear }

end BandlimitedWavetableOscillator

/-- The phase advance in `BandlimitedWavetableOscillator::process`:
`self.phase += self.phase_increment; if self.phase >= 1.0 { self.phase -= 1.0 }`. -/
def bwoPhaseStep (phase phase_increment : ℚ) : ℚ :=
  if 1 ≤ phase + phase_increment then phase + phase_increment - 1
  else phase + phase_increment

/-- The phase-increment recomputation of `process` when the frequency changed:
`self.phase_increment = freq / context.sample_rate()`, followed by the phase
advance. -/
def bwoPhaseUpdate (phase freq sample_rate : ℚ) : ℚ :=
  bwoPhaseStep phase (freq / sample_rate)

/-! ## Table indexing in `BandlimitedWavetableOscillator::process`

`temp = phase * table_size; int_part = temp as usize;
frac_part = temp - int_part; idx = int_part & table_mask` with
`table_mask = table_size - 1`, then the interpolator reads the sample vector
(of length `table_size + 1`, guard sample included). -/

/-- The index fed to the interpolators: `(phase * table_size) as usize` masked
by `table_size - 1`. -/
def phaseToIdx (phase : ℚ) (table_size : ℕ) : ℕ :=
  (⌊phase * (table_size : ℚ)⌋.toNat) &&& (table_size - 1)

/-- The four sample-vector indices read by `cubic_interpolate`:
`idx.wrapping_sub(1) & mask` (64-bit wrapping subtraction, then mask), `idx`,
`idx + 1` and `idx + 2` — the last three unmasked in the source. -/
def cubicAccessIndices (idx mask : ℕ) : List ℕ :=
  [((idx + (2 ^ 64 - 1)) % 2 ^ 64) &&& mask, idx, idx + 1, idx + 2]

/-- The two sample-vector indices read by `linear_interpolate`: `idx` and
`idx + 1`, unmasked (the `+ 1` lands on the guard sample at most). -/
def linearAccessIndices (idx : ℕ) : List ℕ := [idx, idx + 1]

/-- In-bounds predicate for an access into a table's sample vector, whose
length is `table_size + 1`. -/
def accessInBounds (table_size j : ℕ) : Prop := j < table_size + 1

/-! ## Summing processor (`processor.rs`) and graph (`audio_graph.rs`) -/

/-- `AudioProcessor` from `processor.rs`.  Its `inputs` map holds child nodes
whose `process` is called once per sample; a child is embedded by the sample
function it realises for the call at hand. -/
structure AudioProcessor where
  gain : AudioParam
  inputs : List (ℕ → ℝ)

namespace AudioProcessor

/-- `AudioProcessor::new` (the `_type` string argument is ignored by the
source). -/
def new : AudioProcessor :=
  { gain := AudioParam.new 1 0 1, inputs := [] }

/-- `AudioProcessor::process`: the sum of all inputs' outputs at
`current_sample`, multiplied by `gain.get_value(current_sample)`. -/
noncomputable def process (p : AudioProcessor) (current_sample : ℕ) : ℝ :=
  (p.inputs.map (fun node => node current_sample)).sum *
    p.gain.get_value current_sample

end AudioProcessor

/-- `AudioGraph` from `audio_graph.rs`, restricted to the state the claims
inspect: the output node (an `AudioProcessor` right after construction), the
`playing` flag and the context's sample rate. -/
structure AudioGraph where
  output_node : AudioProcessor
  playing : Bool
  sample_rate : ℚ

/-- `AudioGraph::new` (the non-`cpal-output` branch, which the source reaches
without touching an audio device): a fresh `AudioProcessor::new("gain")` as
output node, `playing = false`, sample rate 44100. -/
def AudioGraph.new : AudioGraph :=
  { output_node := AudioProcessor.new
    playing := false
    sample_rate := 44100 }

/-- The frame loop of `write_data`'s playing branch: iterate over
`output.chunks_mut(channels)` (each chunk has `min channels remaining`
elements; `remaining` is what is left of the buffer), produce one sample per
frame from the output node and write it to every element of the chunk.  The
node is threaded as explicit state through `proc`.  Fuel equals the remaining
length, which bounds the chunk count for `channels ≥ 1` (for `channels = 0`
the source panics inside `chunks_mut`). -/
def fillFrames {T σ : Type} (fromSample : ℝ → T) (proc : σ → ℕ → ℝ × σ)
    (channels base : ℕ) : ℕ → ℕ → ℕ → σ → List T × σ
  | 0, _, _, node => ([], node)
  | _ + 1, 0, _, node => ([], node)
  | fuel + 1, remaining, frame_index, node =>
      let chunk := min channels remaining
      let r := proc node (base + frame_index)
      let rest := fillFrames fromSample proc channels base fuel (remaining - chunk)
        (frame_index + 1) r.2
      (List.replicate chunk (fromSample r.1) ++ rest.1, rest.2)

/-- `AudioGraph::write_data` (`audio_graph.rs`), generic over the sample type
`T` (with its `EQUILIBRIUM` and `from_sample` conversion) and the output
node's state `σ`.  Returns the written buffer, the node state after the call,
and the clock's `current_sample` after the call.  If `!playing`, every buffer
element is set to `T::EQUILIBRIUM` and the function returns at once; otherwise
the frame loop runs and the clock advances by `num_frames = len / channels`
(`increment_samples`; its advance-by-`n` effect is as the call site requires:
the `AudioContext` in `src/` only carries `current_sample`). -/
def write_data {T σ : Type} (equilibrium : T) (fromSample : ℝ → T)
    (proc : σ → ℕ → ℝ × σ) (output_len channels : ℕ) (playing : Bool)
    (node : σ) (current_sample : ℕ) : List T × σ × ℕ :=
  let num_frames := output_len / channels
  if playing = false then
    (List.replicate output_len equilibrium, node, current_sample)
  else
    let r := fillFrames fromSample proc channels current_sample output_len
      output_len 0 node
    (r.1, r.2, current_sample + num_frames)

/-! ## Spec-side evaluators and shared concrete instances -/

namespace AudioParam

/-- Evaluator following the claim's words: the value is determined by the LAST
event in insertion order satisfying `s ≥ event.start_sample`; if that event is
in progress its ramp formula applies, if it is completed its `end_value`
applies; with no matching event, `current_value`. -/
noncomputable def getValueLastStarted (p : AudioParam) (s : ℕ) : ℝ :=
  match p.events.reverse.find? (fun e => decide (e.start_sample ≤ s)) with
  | some e =>
      if s < e.start_sample + e.duration_samples then interpRamp e s
      else ((e.end_value : ℚ) : ℝ)
  | none => ((p.current_value : ℚ) : ℝ)

/-- Evaluator for the amended reading of `get_value`: the FIRST event in
insertion order that is in progress at `s` decides via its ramp formula
(iteration stops there); with no in-progress event, the LAST completed event
decides via its `end_value`; with no matching event at all, `current_value`. -/
noncomputable def getValueFirstInProgress (p : AudioParam) (s : ℕ) : ℝ :=
  match p.events.find? (inProgressAt s) with
  | some e => interpRamp e s
  | none =>
      match p.events.reverse.find? (completedAt s) with
      | some e => ((e.end_value : ℚ) : ℝ)
      | none => ((p.current_value : ℚ) : ℝ)

end AudioParam

/-- Lifting an event's endpoints to at least `1e-5`, as `get_value`'s
exponential branch does before forming the ratio. -/
def liftEps (e : RampEvent) : RampEvent :=
  { e with
    start_value := max e.start_value (1 / 100000)
    end_value := max e.end_value (1 / 100000) }

/-- A linear ramp 0 → 10 over samples [0, 10). -/
def rampA : RampEvent :=
  { start_value := 0, end_value := 10, start_sample := 0,
    duration_samples := 10, ramp_type := RampType.Linear }

/-- A later-inserted linear ramp 5 → 7 over samples [0, 1): it is already
completed at sample 2, while `rampA` is still in progress there. -/
def rampB : RampEvent :=
  { start_value := 5, end_value := 7, start_sample := 0,
    duration_samples := 1, ramp_type := RampType.Linear }

/-- A parameter carrying `rampA` then `rampB`, both of which satisfy
`s ≥ start_sample` at `s = 2`. -/
def overlapParam : AudioParam :=
  { current_value := 0, default_value := 0, min_value := 0, max_value := 10,
    events := [rampA, rampB] }

/-- A stored Exponential event whose two endpoints are zero. -/
def zeroExpEvent : RampEvent :=
  { start_value := 0, end_value := 0, start_sample := 0,
    duration_samples := 1, ramp_type := RampType.Exponential }

/-- The frequency parameter of a fresh oscillator, used as a concrete linear
ramp instance. -/
def freqParam : AudioParam := AudioParam.new 440 (1 / 100) 22050

/-! ## Theorems -/

/-- The `for` loop of `get_value` computes: the first in-progress event's
interpolation if one exists, otherwise the last completed event's `end_value`,
otherwise the accumulator it started from. -/
theorem getValueAux_characterisation (s : ℕ) (l : List RampEvent) (v : ℚ) :
    AudioParam.getValueAux s v l =
      match l.find? (AudioParam.inProgressAt s) with
      | some e => AudioParam.interpRamp e s
      | none =>
          match l.reverse.find? (AudioParam.completedAt s) with
          | some e => ((e.end_value : ℚ) : ℝ)
          | none => ((v : ℚ) : ℝ) := by
  induction l generalizing v with
  | nil => simp [AudioParam.getValueAux]
  | cons e rest ih =>
      by_cases h1 : AudioParam.inProgressAt s e
      · simp [AudioParam.getValueAux, h1]
      · by_cases h2 : AudioParam.completedAt s e
        · rw [show AudioParam.getValueAux s v (e :: rest) =
              AudioParam.getValueAux s e.end_value rest by
            simp [AudioParam.getValueAux, h1, h2]]
          rw [ih]
          simp only [List.find?_cons_of_neg _ h1, List.reverse_cons,
            List.find?_append]
          rcases hf : rest.find? (AudioParam.inProgressAt s) with _ | e'
          · rcases hg : rest.reverse.find? (AudioParam.completedAt s) with _ | e''
            · simp [List.find?, h2, Option.or]
            · simp [Option.or]
          · rfl
        · rw [show AudioParam.getValueAux s v (e :: rest) =
              AudioParam.getValueAux s v rest by
            simp [AudioParam.getValueAux, h1, h2]]
          rw [ih]
          simp only [List.find?_cons_of_neg _ h1, List.reverse_cons,
            List.find?_append]
          rcases hf : rest.find? (AudioParam.inProgressAt s) with _ | e'
          · rcases hg : rest.reverse.find? (AudioParam.completedAt s) with _ | e''
            · simp [List.find?, h2, Option.or]
            · simp [Option.or]
          · rfl


/-- C1: for every parameter and sample index, `get_value` is decided by the
FIRST event in insertion order that is in progress at `s` (its ramp formula;
the loop breaks there); only when no event is in progress does the LAST
completed event decide via its `end_value`; otherwise `current_value` is
returned.  This corrects the claim's "the LAST event satisfying
`s ≥ start_sample` decides". -/
theorem C1_get_value_first_in_progress_event_decides
    (p : AudioParam) (s : ℕ) :
    p.get_value s = p.getValueFirstInProgress s := by
  unfold AudioParam.get_value AudioParam.getValueFirstInProgress
  exact getValueAux_characterisation s p.events p.current_value

/-- C1 counterexample: at sample 2 both events of `overlapParam` satisfy
`s ≥ start_sample`; the claim's "last event decides" rule would return
`rampB`'s `end_value = 7`, but `get_value` breaks at the still-in-progress
`rampA` and returns its ramp value `2`. -/
theorem C1_counterexample_last_event_does_not_decide :
    overlapParam.get_value 2 = ((2 : ℚ) : ℝ) ∧
    overlapParam.getValueLastStarted 2 = ((7 : ℚ) : ℝ) ∧
    overlapParam.get_value 2 ≠ overlapParam.getValueLastStarted 2 := by
  refine ⟨?_, ?_, ?_⟩
  · show AudioParam.getValueAux 2 0 [rampA, rampB] = ((2 : ℚ) : ℝ)
    rw [show AudioParam.getValueAux 2 0 [rampA, rampB] =
        AudioParam.interpRamp rampA 2 by
      simp [AudioParam.getValueAux, AudioParam.inProgressAt, rampA]]
    norm_num [AudioParam.interpRamp, rampA]
  · unfold AudioParam.getValueLastStarted
    norm_num [overlapParam, rampA, rampB]
  · rw [show overlapParam.get_value 2 =
        AudioParam.getValueAux 2 0 [rampA, rampB] from rfl]
    rw [show AudioParam.getValueAux 2 0 [rampA, rampB] =
        AudioParam.interpRamp rampA 2 by
      simp [AudioParam.getValueAux, AudioParam.inProgressAt, rampA]]
    unfold AudioParam.getValueLastStarted
    norm_num [AudioParam.interpRamp, overlapParam, rampA, rampB]

/-- C2: with no other events pending, a linear ramp scheduled toward target
`v` (clamped to `b`), anchored at `A` with computed duration `D` samples,
makes `get_value (A + k)` equal `a + (b − a) · k / D` for `0 ≤ k < D` (so
within the claim's `1e-4 · max 1 |b − a|` tolerance), and `get_value (A + D)`
equal `b`. -/
theorem C2_linear_ramp_values (p : AudioParam) (v d sr : ℚ) (A : ℕ)
    (hev : p.events = []) :
    (∀ k, k < AudioParam.durationSamples d sr →
      |(p.linear_ramp_to_value_at_time v d A sr).get_value (A + k) -
          ((p.current_value : ℝ) +
            ((p.clamp_value v : ℝ) - (p.current_value : ℝ)) *
              ((k : ℝ) / (AudioParam.durationSamples d sr : ℝ)))| ≤
        (1 / 10000) * max 1 |(p.clamp_value v : ℝ) - (p.current_value : ℝ)|) ∧
    (p.linear_ramp_to_value_at_time v d A sr).get_value
        (A + AudioParam.durationSamples d sr) = ((p.clamp_value v : ℚ) : ℝ) := by
  constructor
  · intro k hk
    have hval : (p.linear_ramp_to_value_at_time v d A sr).get_value (A + k) =
        ((p.current_value +
            (p.clamp_value v - p.current_value) *
              ((k : ℚ) / (AudioParam.durationSamples d sr : ℚ)) : ℚ) : ℝ) := by
      unfold AudioParam.get_value AudioParam.linear_ramp_to_value_at_time
      simp only [hev, List.nil_append]
      rw [show AudioParam.getValueAux (A + k) p.current_value
          [{ start_value := p.current_value
             end_value := p.clamp_value v
             start_sample := A
             duration_samples := AudioParam.durationSamples d sr
             ramp_type := RampType.Linear }] =
          AudioParam.interpRamp
            { start_value := p.current_value
              end_value := p.clamp_value v
              start_sample := A
              duration_samples := AudioParam.durationSamples d sr
              ramp_type := RampType.Linear } (A + k) by
        simp [AudioParam.getValueAux, AudioParam.inProgressAt, hk]]
      unfold AudioParam.interpRamp
      simp [Nat.add_sub_cancel_left]
    rw [hval]
    push_cast
    rw [show (p.current_value : ℝ) +
        ((p.clamp_value v : ℝ) - (p.current_value : ℝ)) *
          ((k : ℝ) / (AudioParam.durationSamples d sr : ℝ)) -
        ((p.current_value : ℝ) +
          ((p.clamp_value v : ℝ) - (p.current_value : ℝ)) *
            ((k : ℝ) / (AudioParam.durationSamples d sr : ℝ))) = 0 by ring]
    rw [abs_zero]
    positivity
  · unfold AudioParam.get_value AudioParam.linear_ramp_to_value_at_time
    simp only [hev, List.nil_append]
    simp [AudioParam.getValueAux, AudioParam.inProgressAt, AudioParam.completedAt]

/-- C2 witness: the concrete scenario of the repository's `test_linear_ramp`
(fresh 440 Hz frequency parameter, ramp to 880 over 0.1 s at 44100 Hz,
anchored at 0). -/
theorem C2_linear_ramp_values_witness :
    freqParam.events = [] ∧
    ((∀ k, k < AudioParam.durationSamples (1 / 10) 44100 →
      |(freqParam.linear_ramp_to_value_at_time 880 (1 / 10) 0 44100).get_value (0 + k) -
          ((freqParam.current_value : ℝ) +
            ((freqParam.clamp_value 880 : ℝ) - (freqParam.current_value : ℝ)) *
              ((k : ℝ) / (AudioParam.durationSamples (1 / 10) 44100 : ℝ)))| ≤
        (1 / 10000) * max 1 |(freqParam.clamp_value 880 : ℝ) - (freqParam.current_value : ℝ)|) ∧
    (freqParam.linear_ramp_to_value_at_time 880 (1 / 10) 0 44100).get_value
        (0 + AudioParam.durationSamples (1 / 10) 44100) =
      ((freqParam.clamp_value 880 : ℚ) : ℝ)) :=
  ⟨rfl, C2_linear_ramp_values freqParam 880 (1 / 10) 44100 0 rfl⟩

/-- C9: ramp scheduling and evaluation never touch `current_value`
(`get_value` is read-only, embedded as a pure function), so cancelling after a
ramp — completed or not — makes every subsequent `get_value` return the
`current_value` the parameter held when the ramp was scheduled, not the ramp's
`end_value`. -/
theorem C9_cancel_after_ramp_returns_current (p : AudioParam)
    (v d sr : ℚ) (A : ℕ) :
    ((p.linear_ramp_to_value_at_time v d A sr).current_value =
      p.current_value) ∧
    ((p.linear_ramp_to_value_at_time v d A sr).cancel_scheduled_values.events =
      []) ∧
    (∀ s : ℕ,
      (p.linear_ramp_to_value_at_time v d A sr).cancel_scheduled_values.get_value
          s = ((p.current_value : ℚ) : ℝ)) := by
  refine ⟨rfl, rfl, fun s => rfl⟩

/-- C5: `exponential_ramp_to_value_at_time` appends an event whose
`start_value` is the parameter's `current_value` and whose `end_value` is the
target clamped to `[min, max]` — neither endpoint is lifted to ε at
scheduling time.  The `≥ ε` guarantee holds at evaluation instead: the
interpolation of an Exponential event is unchanged by lifting its endpoints to
`ε = 1e-5`, and the lifted endpoints are `≥ ε`. -/
theorem C5_exponential_event_eps_lift_at_eval :
    (∀ (p : AudioParam) (v d : ℚ) (A : ℕ) (sr : ℚ),
      (p.exponential_ramp_to_value_at_time v d A sr).events =
        p.events ++
          [{ start_value := p.current_value
             end_value := p.clamp_value v
             start_sample := A
             duration_samples := AudioParam.durationSamples d sr
             ramp_type := RampType.Exponential }]) ∧
    (∀ e : RampEvent, e.ramp_type = RampType.Exponential → ∀ s : ℕ,
      AudioParam.interpRamp e s = AudioParam.interpRamp (liftEps e) s ∧
        (1 / 100000 : ℚ) ≤ (liftEps e).start_value ∧
        (1 / 100000 : ℚ) ≤ (liftEps e).end_value) := by
  constructor
  · intro p v d A sr
    rfl
  · intro e he s
    refine ⟨?_, le_max_right _ _, le_max_right _ _⟩
    unfold AudioParam.interpRamp liftEps
    simp [he, max_assoc]

/-- C5 witness: the first part at a fresh gain parameter, the second at the
concrete zero-endpoint Exponential event. -/
theorem C5_exponential_event_eps_lift_at_eval_witness :
    ((AudioParam.new 1 0 1).exponential_ramp_to_value_at_time 0 1 0 1).events =
      (AudioParam.new 1 0 1).events ++
        [{ start_value := (AudioParam.new 1 0 1).current_value
           end_value := (AudioParam.new 1 0 1).clamp_value 0
           start_sample := 0
           duration_samples := AudioParam.durationSamples 1 1
           ramp_type := RampType.Exponential }] ∧
    (AudioParam.interpRamp zeroExpEvent 0 =
        AudioParam.interpRamp (liftEps zeroExpEvent) 0 ∧
      (1 / 100000 : ℚ) ≤ (liftEps zeroExpEvent).start_value ∧
      (1 / 100000 : ℚ) ≤ (liftEps zeroExpEvent).end_value) :=
  ⟨C5_exponential_event_eps_lift_at_eval.1 (AudioParam.new 1 0 1) 0 1 0 1,
    C5_exponential_event_eps_lift_at_eval.2 zeroExpEvent rfl 0⟩

/-- C5 counterexample: a gain parameter (range [0, 1]) set to 0 and then
scheduled exponentially toward 0 stores an Exponential event whose both
endpoints are `0 < 1e-5`, refuting "every stored Exponential event has
`start_value ≥ 1e-5` and `end_value ≥ 1e-5`". -/
theorem C5_counterexample_stored_event_below_eps :
    (((AudioParam.new 1 0 1).set_value 0).exponential_ramp_to_value_at_time
        0 1 0 1).events =
      [{ start_value := 0, end_value := 0, start_sample := 0,
         duration_samples := 1, ramp_type := RampType.Exponential }] ∧
    ¬ ((1 / 100000 : ℚ) ≤ (0 : ℚ)) := by
  constructor
  · norm_num [AudioParam.exponential_ramp_to_value_at_time,
      AudioParam.set_value, AudioParam.new, AudioParam.clamp_value,
      AudioParam.durationSamples]
  · norm_num

/-- Evaluation of one step of the bank-construction loop; `harmonics >>= 1`
is halving. -/
theorem bankBoundsAux_succ (sr : ℚ) (fuel harmonics : ℕ) (top_freq : ℚ) :
    bankBoundsAux sr (fuel + 1) harmonics top_freq =
      if 1 ≤ harmonics then
        (top_freq * sr) :: bankBoundsAux sr fuel (harmonics / 2) (top_freq * 2)
      else [] := by
  rw [← Nat.shiftRight_one harmonics]
  rfl

/-- `max_harmonics` at 44100 Hz: `⌊44100 / 60⌋ = 735`. -/
theorem maxHarmonics_at_44100 : maxHarmonics 44100 = 735 := by
  unfold maxHarmonics BASE_FREQ
  norm_num
  rfl

/-- The frequency bounds of the 44100 Hz bank: ten octave bands from 40 Hz to
20480 Hz. -/
theorem bankBounds_at_44100 :
    bankBounds 44100 =
      [40, 80, 160, 320, 640, 1280, 2560, 5120, 10240, 20480] := by
  unfold bankBounds
  rw [maxHarmonics_at_44100]
  unfold BASE_FREQ
  rw [bankBoundsAux_succ]
  norm_num
  rw [bankBoundsAux_succ]
  norm_num
  rw [bankBoundsAux_succ]
  norm_num
  rw [bankBoundsAux_succ]
  norm_num
  rw [bankBoundsAux_succ]
  norm_num
  rw [bankBoundsAux_succ]
  norm_num
  rw [bankBoundsAux_succ]
  norm_num
  rw [bankBoundsAux_succ]
  norm_num
  rw [bankBoundsAux_succ]
  norm_num
  rw [bankBoundsAux_succ]
  norm_num
  rw [bankBoundsAux_succ]
  norm_num

/-- The table length of the 44100 Hz bank: the smallest power of two at least
`735 · 2 · 2 = 2940`, namely 4096. -/
theorem tableLen_at_44100 : tableLen (maxHarmonics 44100) = 4096 := by
  rw [maxHarmonics_at_44100]
  decide

/-- C3: at sample rate 44100 the bank construction loop runs 10 times for
every waveform kind (harmonics 735, 367, 183, 91, 45, 22, 11, 5, 2, 1), so
each bank has 10 ≥ 6 tables with strictly increasing frequency bounds
40·2^i Hz; but the last bound is 20480 Hz, which is BELOW `sample_rate/2 =
22050`, correcting the claim's "the last bound exceeds sample_rate/2". -/
theorem C3_bank_bounds_at_44100 (w : OscillatorType) :
    (WaveTableBank.new w 44100).num_tables = 10 ∧
    6 ≤ (WaveTableBank.new w 44100).num_tables ∧
    List.Chain' (· < ·) (WaveTableBank.new w 44100).frequency_bounds ∧
    (WaveTableBank.new w 44100).frequency_bounds.getLast? = some 20480 ∧
    (20480 : ℚ) < 44100 / 2 := by
  have hb : (WaveTableBank.new w 44100).frequency_bounds =
      [40, 80, 160, 320, 640, 1280, 2560, 5120, 10240, 20480] :=
    bankBounds_at_44100
  have hn : (WaveTableBank.new w 44100).num_tables =
      (bankBounds 44100).length := rfl
  rw [bankBounds_at_44100] at hn
  refine ⟨?_, ?_, ?_, ?_, by norm_num⟩
  · rw [hn]
    rfl
  · rw [hn]
    norm_num
  · rw [hb]
    norm_num [List.chain'_cons]
  · rw [hb]
    rfl

/-- C3 counterexample: the last frequency bound of the 44100 Hz bank is
20480 Hz, and it does not exceed `sample_rate / 2 = 22050`. -/
theorem C3_counterexample_last_bound_below_half_rate :
    (WaveTableBank.new OscillatorType.Sine 44100).frequency_bounds.getLast? =
      some 20480 ∧
    ¬ ((20480 : ℚ) > 44100 / 2) := by
  constructor
  · rw [show (WaveTableBank.new OscillatorType.Sine 44100).frequency_bounds =
        [40, 80, 160, 320, 640, 1280, 2560, 5120, 10240, 20480] from
      bankBounds_at_44100]
    rfl
  · norm_num

/-- C4: in cubic interpolation mode the fourth access `table[idx + 2]` is not
masked; at the 44100 Hz bank (table_size 4096, sample vector length 4097,
valid indices 0..4096) the reachable index `idx = 4095` (any phase in
[4095/4096, 1)) makes the code read index 4097 — out of bounds, an indexing
panic.  This refutes "all four table accesses are within bounds ... in
particular when i equals N−1". -/
theorem C4_cubic_access_out_of_bounds :
    (WaveTableBank.new OscillatorType.Sine 44100).table_size = 4096 ∧
    phaseToIdx (4095 / 4096) 4096 = 4095 ∧
    cubicAccessIndices 4095 4095 = [4094, 4095, 4096, 4097] ∧
    (4097 : ℕ) ∈ cubicAccessIndices 4095 4095 ∧
    ¬ accessInBounds 4096 4097 := by
  refine ⟨tableLen_at_44100, ?_, by decide, by decide, ?_⟩
  · unfold phaseToIdx
    rw [show ⌊(4095 / 4096 : ℚ) * ((4096 : ℕ) : ℚ)⌋ = 4095 by norm_num]
    rfl
  · simp [accessInBounds]

/-- C6: for both oscillator types and every sample rate, the frequency
parameter has default 440 and the HARDCODED range `[0.01, 22050]` — not
`[0.01, sample_rate/2]` as claimed: the range is independent of the sample
rate and coincides with `sample_rate/2` exactly when the rate is 44100 — and
the gain parameter has default 1 and range `[0, 1]`. -/
theorem C6_oscillator_param_ranges (t : OscillatorType) (sr : ℚ) :
    (Oscillator.new t).frequency.default_value = 440 ∧
    (Oscillator.new t).frequency.min_value = 1 / 100 ∧
    (Oscillator.new t).frequency.max_value = 22050 ∧
    (Oscillator.new t).gain.default_value = 1 ∧
    (Oscillator.new t).gain.min_value = 0 ∧
    (Oscillator.new t).gain.max_value = 1 ∧
    (BandlimitedWavetableOscillator.new t sr).frequency.default_value = 440 ∧
    (BandlimitedWavetableOscillator.new t sr).frequency.min_value = 1 / 100 ∧
    (BandlimitedWavetableOscillator.new t sr).frequency.max_value = 22050 ∧
    (BandlimitedWavetableOscillator.new t sr).gain.default_value = 1 ∧
    (BandlimitedWavetableOscillator.new t sr).gain.min_value = 0 ∧
    (BandlimitedWavetableOscillator.new t sr).gain.max_value = 1 ∧
    ((BandlimitedWavetableOscillator.new t sr).frequency.max_value = sr / 2 ↔
      sr = 44100) := by
  refine ⟨rfl, rfl, rfl, rfl, rfl, rfl, rfl, rfl, rfl, rfl, rfl, rfl, ?_⟩
  show (22050 : ℚ) = sr / 2 ↔ sr = 44100
  constructor
  · intro h
    linarith
  · intro h
    rw [h]
    norm_num

/-- C6 counterexample: an oscillator constructed at sample rate 48000 still
has frequency range top 22050, not `48000 / 2 = 24000`. -/
theorem C6_counterexample_freq_max_not_half_rate :
    (BandlimitedWavetableOscillator.new OscillatorType.Sine 48000).frequency.max_value
      ≠ 48000 / 2 := by
  show (22050 : ℚ) ≠ 48000 / 2
  norm_num

/-- C7: with the `playing` flag false, `write_data` fills the whole buffer
with the equilibrium sample and returns immediately: for every buffer length,
channel count, output node (of any state type, with any `process` behaviour)
and clock position, the buffer comes back as all-equilibrium, the node state
is untouched (so `process` was never called) and the clock's `current_sample`
is unchanged. -/
theorem C7_stopped_fill_equilibrium {T σ : Type} (equilibrium : T)
    (fromSample : ℝ → T) (proc : σ → ℕ → ℝ × σ) (output_len channels : ℕ)
    (node : σ) (current_sample : ℕ) :
    write_data equilibrium fromSample proc output_len channels false node
        current_sample =
      (List.replicate output_len equilibrium, node, current_sample) ∧
    ∀ x ∈ (write_data equilibrium fromSample proc output_len channels false
        node current_sample).1, x = equilibrium := by
  refine ⟨rfl, ?_⟩
  intro x hx
  exact List.eq_of_mem_replicate hx

/-- C8: the PolyBLEP oscillator's phase update lands in `[0, 1)` from any
state and any increment (its `fmod` is a true fractional part); the wavetable
oscillator's phase update preserves `0 ≤ phase < 1` PROVIDED the increment
`frequency / sample_rate` is itself in `[0, 1)` — the claim's "any sample
rate" fails: the single conditional subtraction cannot wrap an increment
`≥ 1`, which the frequency range `[0.01, 22050]` permits at sample rates
`≤ 22050`. -/
theorem C8_phase_invariant :
    (∀ phase dt : ℚ, 0 ≤ oscPhaseStep phase dt ∧ oscPhaseStep phase dt < 1) ∧
    (∀ phase inc : ℚ, 0 ≤ phase → phase < 1 → 0 ≤ inc → inc < 1 →
      0 ≤ bwoPhaseStep phase inc ∧ bwoPhaseStep phase inc < 1) := by
  constructor
  · intro phase dt
    have h : oscPhaseStep phase dt = Int.fract (phase + dt) := by
      unfold oscPhaseStep fmod Int.fract
      rw [div_one]
      ring
    rw [h]
    exact ⟨Int.fract_nonneg _, Int.fract_lt_one _⟩
  · intro phase inc h0 h1 h2 h3
    unfold bwoPhaseStep
    split_ifs with h
    · constructor <;> linarith
    · constructor <;> linarith

/-- C8 witness: the PolyBLEP step from phase 3/2 with increment 3/4, and the
wavetable step from phase 0 with increment 1/2. -/
theorem C8_phase_invariant_witness :
    (0 ≤ oscPhaseStep (3 / 2) (3 / 4) ∧ oscPhaseStep (3 / 2) (3 / 4) < 1) ∧
    (0 ≤ bwoPhaseStep 0 (1 / 2) ∧ bwoPhaseStep 0 (1 / 2) < 1) :=
  ⟨C8_phase_invariant.1 (3 / 2) (3 / 4),
    C8_phase_invariant.2 0 (1 / 2) le_rfl zero_lt_one one_half_pos.le
      one_half_lt_one⟩

/-- C8 counterexample: at sample rate 11025 the frequency 22050 is inside the
wavetable oscillator's parameter range, yet the phase update from phase 0
yields exactly 1, violating `phase < 1`. -/
theorem C8_counterexample_wavetable_phase_escape :
    (BandlimitedWavetableOscillator.new OscillatorType.Sine 11025).frequency.min_value
        ≤ 22050 ∧
    (22050 : ℚ) ≤
      (BandlimitedWavetableOscillator.new OscillatorType.Sine 11025).frequency.max_value ∧
    bwoPhaseUpdate 0 22050 11025 = 1 ∧
    ¬ (bwoPhaseUpdate 0 22050 11025 < 1) := by
  refine ⟨?_, ?_, ?_, ?_⟩
  · show (1 / 100 : ℚ) ≤ 22050
    norm_num
  · show (22050 : ℚ) ≤ 22050
    exact le_refl _
  · unfold bwoPhaseUpdate bwoPhaseStep
    norm_num
  · unfold bwoPhaseUpdate bwoPhaseStep
    norm_num

/-- C10: an `AudioProcessor` with no attached inputs produces exactly 0 at
every sample regardless of its gain parameter (the empty input sum is 0), and
the freshly constructed `AudioGraph`'s output node is exactly such a
processor with `playing = false`, so the graph renders silence until
`set_output` installs another node. -/
theorem C10_processor_no_inputs_silence :
    (∀ (gain : AudioParam) (s : ℕ),
      AudioProcessor.process { gain := gain, inputs := [] } s = 0) ∧
    (∀ s : ℕ, AudioGraph.new.output_node.process s = 0) ∧
    AudioGraph.new.playing = false := by
  refine ⟨?_, ?_, rfl⟩
  · intro gain s
    unfold AudioProcessor.process
    simp
  · intro s
    show AudioProcessor.process AudioProcessor.new s = 0
    unfold AudioProcessor.process AudioProcessor.new
    simp

/-- C7 witness: a stereo 1024-sample buffer over `ℚ` samples with a unit-state
node, clock at 100. -/
theorem C7_stopped_fill_equilibrium_witness :
    write_data (0 : ℚ) (fun _ => 0) (fun (u : Unit) _ => (0, u)) 1024 2 false
        () 100 =
      (List.replicate 1024 (0 : ℚ), (), 100) ∧
    ∀ x ∈ (write_data (0 : ℚ) (fun _ => 0) (fun (u : Unit) _ => (0, u)) 1024 2
        false () 100).1, x = 0 :=
  C7_stopped_fill_equilibrium 0 (fun _ => 0) (fun u _ => (0, u)) 1024 2 () 100
